import Mathlib

/-!
Verification of the terminal-session orchestrator (Terminals Service).

This file gives a shallow embedding, in Lean 4, of the core of the
terminals service: the shell-argument escapers, the output batcher, the
multiplexer (Zellij) query cache, the init-command injection protocol, the
tab-management phase of `create`, identity resolution, and the table
operations `get`, `remove` and `cleanup`.  External collaborators (the
Zellij binary, node-pty, the transport) are modelled as explicit data:
their observable outcomes are parameters of the embedded functions, and
the side effects the service performs on them are recorded as event
traces.  Machine strings are Lean `String`s (lists of characters);
asynchronous methods are embedded as pure state-passing functions, which
is faithful because the service runs on a single event loop and each
embedded method body contains no interleaving point that the claims
depend on.
-/

namespace Agor

/-- Default timeout for Zellij operations in milliseconds. -/
def ZELLIJ_COMMAND_TIMEOUT_MS : Nat := 5000

/-- Batching interval for PTY output in milliseconds. -/
def DATA_BATCH_INTERVAL_MS : Nat := 10

/-- Cache TTL for Zellij tab lists in milliseconds. -/
def TAB_CACHE_TTL_MS : Nat := 5000

/-- Timeout for waiting for the PTY ready signal in milliseconds. -/
def READY_TIMEOUT_MS : Nat := 3000

/-- Maximum buffer size for PTY output batching in bytes. -/
def MAX_BUFFER_SIZE : Nat := 1024 * 1024

/-- The backtick character (code 96). -/
def backtickChar : Char := Char.ofNat 96

/-- Character-level step of `escapeShellArg`: a single quote becomes
close-quote, escaped quote, reopen-quote; every other character is kept. -/
def escSQChar (c : Char) : List Char :=
  if c = '\'' then ['\'', '\\', '\'', '\''] else [c]

/-- List-of-characters form of `escapeShellArg` from the source: wrap in
single quotes, replacing each embedded single quote by the four-character
sequence quote, backslash, quote, quote. -/
def escapeShellArgL (l : List Char) : List Char :=
  '\'' :: l.flatMap escSQChar ++ ['\'']

/-- `escapeShellArg` from the source (`set.ts`, `escapeShellArg`). -/
def escapeShellArg (s : String) : String :=
  ⟨escapeShellArgL s.data⟩

/-- One global single-character replacement pass, the embedding of a
JavaScript `str.replace(/x/g, repl)` where `x` is a single character. -/
def replaceChar (t : Char) (r : List Char) (l : List Char) : List Char :=
  l.flatMap fun c => if c = t then r else [c]

/-- List-of-characters form of `escapeDoubleQuoted` from the source: four
sequential global replacement passes, backslash first, then double quote,
dollar sign, backtick. -/
def escapeDoubleQuotedL (l : List Char) : List Char :=
  replaceChar backtickChar ['\\', backtickChar]
    (replaceChar '$' ['\\', '$']
      (replaceChar '"' ['\\', '"']
        (replaceChar '\\' ['\\', '\\'] l)))

/-- `escapeDoubleQuoted` from the source (`set.ts`, `escapeDoubleQuoted`). -/
def escapeDoubleQuoted (s : String) : String :=
  ⟨escapeDoubleQuotedL s.data⟩

/-- Characters for which a backslash keeps its special meaning inside a
POSIX double-quoted string: dollar, backtick, double quote, backslash. -/
def specialDQ (c : Char) : Bool :=
  c = '$' || c = backtickChar || c = '"' || c = '\\'

/-- Characters that, unquoted, would make a POSIX shell do something other
than take the character literally (word breaks, operators, expansions,
globbing, comments, tilde and history expansion).  The evaluator below
conservatively refuses them, so that its `some` answers are certainly the
literal value the shell produces. -/
def specialUnquoted (c : Char) : Bool :=
  c = '$' || c = backtickChar || c = ' ' || c = '\t' || c = '\n' ||
  c = ';' || c = '&' || c = '|' || c = '<' || c = '>' ||
  c = '(' || c = ')' || c = '*' || c = '?' || c = '[' ||
  c = '~' || c = '#' || c = '!'

/-- Quoting mode of the POSIX shell word evaluator: outside quotes,
outside quotes right after a backslash, inside single quotes, inside
double quotes, inside double quotes right after a backslash. -/
inductive QMode where
  | out
  | outEsc
  | sq
  | dq
  | dqEsc
deriving DecidableEq

/-- Model of POSIX shell word evaluation (quote removal).  `shellEval m l`
returns `some v` exactly when the shell, reading the fragment `l` starting
in quoting mode `m`, certainly yields the literal character sequence `v`
as the single resulting word; it returns `none` on unterminated quotes and
on any construct whose result is not a guaranteed literal (parameter
expansion, command substitution, globbing, word breaks).  Backslash
semantics follow POSIX: outside quotes it escapes any character and a
backslash-newline is a line continuation; inside double quotes it is
special only before dollar, backtick, double quote, backslash (and
newline, as line continuation — before any other character the backslash
is kept); inside single quotes nothing is special. -/
def shellEval : QMode → List Char → Option (List Char)
  | .out, [] => some []
  | .outEsc, [] => none
  | .sq, [] => none
  | .dq, [] => none
  | .dqEsc, [] => none
  | .out, c :: rest =>
    if c = '\'' then shellEval .sq rest
    else if c = '"' then shellEval .dq rest
    else if c = '\\' then shellEval .outEsc rest
    else if specialUnquoted c then none
    else (shellEval .out rest).map (c :: ·)
  | .outEsc, c :: rest =>
    if c = '\n' then shellEval .out rest
    else (shellEval .out rest).map (c :: ·)
  | .sq, c :: rest =>
    if c = '\'' then shellEval .out rest
    else (shellEval .sq rest).map (c :: ·)
  | .dq, c :: rest =>
    if c = '"' then shellEval .out rest
    else if c = '\\' then shellEval .dqEsc rest
    else if c = '$' || c = backtickChar then none
    else (shellEval .dq rest).map (c :: ·)
  | .dqEsc, c :: rest =>
    if c = '\n' then shellEval .dq rest
    else if specialDQ c then (shellEval .dq rest).map (c :: ·)
    else (shellEval .dq rest).map fun v => '\\' :: c :: v

/-- The evaluator accepts the empty unquoted fragment. -/
theorem shellEval_out_nil : shellEval .out [] = some [] := rfl

/-- A single quote in single-quote mode closes the quote. -/
theorem shellEval_sq_quote (t : List Char) :
    shellEval .sq ('\'' :: t) = shellEval .out t := by simp [shellEval]

/-- Any other character in single-quote mode is literal. -/
theorem shellEval_sq_plain {c : Char} (h : c ≠ '\'') (t : List Char) :
    shellEval .sq (c :: t) = (shellEval .sq t).map (c :: ·) := by simp [shellEval, h]

/-- A single quote outside quotes opens single-quote mode. -/
theorem shellEval_out_quote (t : List Char) :
    shellEval .out ('\'' :: t) = shellEval .sq t := by simp [shellEval]

/-- A double quote outside quotes opens double-quote mode. -/
theorem shellEval_out_dquote (t : List Char) :
    shellEval .out ('"' :: t) = shellEval .dq t := by simp [shellEval]

/-- A backslash outside quotes escapes the next character. -/
theorem shellEval_out_backslash (t : List Char) :
    shellEval .out ('\\' :: t) = shellEval .outEsc t := by simp [shellEval]

/-- A backslash-escaped character outside quotes is literal. -/
theorem shellEval_outEsc_plain {c : Char} (h : c ≠ '\n') (t : List Char) :
    shellEval .outEsc (c :: t) = (shellEval .out t).map (c :: ·) := by simp [shellEval, h]

/-- A double quote in double-quote mode closes the quote. -/
theorem shellEval_dq_dquote (t : List Char) :
    shellEval .dq ('"' :: t) = shellEval .out t := by simp [shellEval]

/-- A backslash in double-quote mode escapes the next character. -/
theorem shellEval_dq_backslash (t : List Char) :
    shellEval .dq ('\\' :: t) = shellEval .dqEsc t := by simp [shellEval]

/-- A non-special character in double-quote mode is literal. -/
theorem shellEval_dq_plain {c : Char} (h1 : c ≠ '"') (h2 : c ≠ '\\')
    (h3 : c ≠ '$') (h4 : c ≠ backtickChar) (t : List Char) :
    shellEval .dq (c :: t) = (shellEval .dq t).map (c :: ·) := by
  simp [shellEval, h1, h2, h3, h4]

/-- A backslash-escaped double-quote-special character is literal. -/
theorem shellEval_dqEsc_special {c : Char} (hnl : c ≠ '\n') (hs : specialDQ c = true)
    (t : List Char) :
    shellEval .dqEsc (c :: t) = (shellEval .dq t).map (c :: ·) := by
  simp [shellEval, hnl, hs]

/-- Reading the single-quote-escaped body of a string, the evaluator in
single-quote mode consumes it up to the closing quote and yields the raw
characters, continuing as the unquoted evaluator on the remainder. -/
theorem shellEval_sq_escBody (cs : List Char) (t : List Char) :
    shellEval .sq (cs.flatMap escSQChar ++ '\'' :: t) =
      (shellEval .out t).map (cs ++ ·) := by
  induction cs with
  | nil =>
    rw [List.flatMap_nil, List.nil_append, shellEval_sq_quote]
    cases shellEval .out t <;> rfl
  | cons c cs ih =>
    rw [List.flatMap_cons]
    by_cases hc : c = '\''
    · subst hc
      rw [show escSQChar '\'' = ['\'', '\\', '\'', '\''] from by simp [escSQChar]]
      simp only [List.cons_append, List.nil_append]
      rw [shellEval_sq_quote, shellEval_out_backslash,
        shellEval_outEsc_plain (show ('\'' : Char) ≠ '\n' by decide),
        shellEval_out_quote, ih]
      cases shellEval .out t <;> rfl
    · rw [show escSQChar c = [c] from by simp [escSQChar, hc]]
      simp only [List.cons_append, List.nil_append]
      rw [shellEval_sq_plain hc, ih]
      cases shellEval .out t <;> rfl

/-- `escapeDoubleQuotedL` distributes over list append. -/
theorem escapeDoubleQuotedL_append (a b : List Char) :
    escapeDoubleQuotedL (a ++ b) = escapeDoubleQuotedL a ++ escapeDoubleQuotedL b := by
  simp [escapeDoubleQuotedL, replaceChar, List.flatMap_append]

/-- On a single character, the four replacement passes of
`escapeDoubleQuoted` act as one backslash-escape of the double-quote
special characters. -/
theorem escapeDoubleQuotedL_single (c : Char) :
    escapeDoubleQuotedL [c] = if specialDQ c then ['\\', c] else [c] := by
  by_cases h1 : c = '\\'
  · subst h1; decide
  · by_cases h2 : c = '"'
    · subst h2; decide
    · by_cases h3 : c = '$'
      · subst h3; decide
      · by_cases h4 : c = backtickChar
        · subst h4; decide
        · simp [escapeDoubleQuotedL, replaceChar, specialDQ, h1, h2, h3, h4]

/-- The four sequential replacement passes of `escapeDoubleQuoted` equal a
single character-level pass that backslash-escapes exactly the four
double-quote-special characters. -/
theorem escapeDoubleQuotedL_eq_flatMap (l : List Char) :
    escapeDoubleQuotedL l =
      l.flatMap fun c => if specialDQ c then ['\\', c] else [c] := by
  induction l with
  | nil => rfl
  | cons c l ih =>
    have h : escapeDoubleQuotedL (c :: l) = escapeDoubleQuotedL [c] ++ escapeDoubleQuotedL l := by
      simpa using escapeDoubleQuotedL_append [c] l
    rw [h, escapeDoubleQuotedL_single, ih, List.flatMap_cons]

/-- Reading the double-quote-escaped body of a string, the evaluator in
double-quote mode consumes it up to the closing double quote and yields
the raw characters back. -/
theorem shellEval_dq_escBody (cs : List Char) (t : List Char) :
    shellEval .dq
        ((cs.flatMap fun c => if specialDQ c then ['\\', c] else [c]) ++ '"' :: t) =
      (shellEval .out t).map (cs ++ ·) := by
  induction cs with
  | nil =>
    rw [List.flatMap_nil, List.nil_append, shellEval_dq_dquote]
    cases shellEval .out t <;> rfl
  | cons c cs ih =>
    rw [List.flatMap_cons]
    by_cases hs : specialDQ c
    · have hnl : c ≠ '\n' := by
        intro h; subst h; revert hs; decide
      rw [if_pos hs]
      simp only [List.cons_append, List.nil_append]
      rw [shellEval_dq_backslash, shellEval_dqEsc_special hnl hs, ih]
      cases shellEval .out t <;> rfl
    · have h1 : c ≠ '$' := fun h => hs (by simp [specialDQ, h])
      have h2 : c ≠ backtickChar := fun h => hs (by simp [specialDQ, h])
      have h3 : c ≠ '"' := fun h => hs (by simp [specialDQ, h])
      have h4 : c ≠ '\\' := fun h => hs (by simp [specialDQ, h])
      rw [if_neg hs]
      simp only [List.cons_append, List.nil_append]
      rw [shellEval_dq_plain h3 h4 h1 h2, ih]
      cases shellEval .out t <;> rfl

/-- C1.  Shell-escaper round-trip safety.  For every raw string `s`
(including strings containing single quotes, backslashes, dollar signs or
backticks): `escapeShellArg s` wraps `s` in single quotes with every
embedded single quote replaced by close-quote, escaped-quote,
reopen-quote, and a POSIX shell evaluating the resulting fragment (its
intended single-quoted context) yields back exactly the literal `s`; and
`escapeDoubleQuoted s` escapes backslash first, then double quote, dollar
sign and backtick, and a POSIX shell evaluating the escaped fragment
embedded in its intended double-quoted context yields back exactly the
literal `s`. -/
theorem escaper_roundtrip (s : String) :
    shellEval .out (escapeShellArg s).data = some s.data ∧
    shellEval .out ('"' :: (escapeDoubleQuoted s).data ++ ['"']) = some s.data := by
  constructor
  · show shellEval .out ('\'' :: s.data.flatMap escSQChar ++ ['\'']) = some s.data
    rw [show ('\'' :: s.data.flatMap escSQChar ++ ['\'']) =
          '\'' :: (s.data.flatMap escSQChar ++ '\'' :: []) from by simp]
    rw [shellEval_out_quote, shellEval_sq_escBody, shellEval_out_nil]
    simp
  · show shellEval .out ('"' :: escapeDoubleQuotedL s.data ++ ['"']) = some s.data
    rw [escapeDoubleQuotedL_eq_flatMap]
    rw [show ('"' :: (s.data.flatMap fun c => if specialDQ c then ['\\', c] else [c]) ++ ['"']) =
          '"' :: ((s.data.flatMap fun c => if specialDQ c then ['\\', c] else [c]) ++ '"' :: []) from by
        simp]
    rw [shellEval_out_dquote, shellEval_dq_escBody, shellEval_out_nil]
    simp

/-!
The Output Batcher (`TerminalDataBatcher` in the source).  The mutable
fields `buffer` and `timer` become a state record; the `onFlush` transport
callback becomes the list of emitted chunks that each operation returns
(in order).  A `setTimeout` registration is modelled by `timer := true`;
the timer firing is the separate transition `flush`.
-/

/-- State of a `TerminalDataBatcher`: the accumulated buffer and whether a
flush timer is currently registered. -/
structure TerminalDataBatcher where
  buffer : String
  timer : Bool
deriving DecidableEq

/-- `TerminalDataBatcher.flush` from the source: cancel a pending timer,
then, when the buffer is non-empty, hand it to `onFlush` as one chunk and
clear it.  Returns the new state and the emitted chunks. -/
def TerminalDataBatcher.flush (b : TerminalDataBatcher) : TerminalDataBatcher × List String :=
  if b.buffer.length > 0 then ({ buffer := "", timer := false }, [b.buffer])
  else ({ b with timer := false }, [])

/-- `TerminalDataBatcher.push` from the source: append the data to the
buffer; if the buffer length reached `MAX_BUFFER_SIZE`, flush immediately
and return; otherwise start the flush timer if none is running. -/
def TerminalDataBatcher.push (b : TerminalDataBatcher) (data : String) :
    TerminalDataBatcher × List String :=
  let b1 : TerminalDataBatcher := { b with buffer := b.buffer ++ data }
  if b1.buffer.length ≥ MAX_BUFFER_SIZE then b1.flush
  else if b1.timer then (b1, [])
  else ({ b1 with timer := true }, [])

/-- `TerminalDataBatcher.destroy` from the source: cancel any pending
timer and clear the buffer without emitting. -/
def TerminalDataBatcher.destroy (_ : TerminalDataBatcher) : TerminalDataBatcher :=
  { buffer := "", timer := false }

/-- Explicit case description of `push`: force-flush when the appended
buffer reaches the ceiling, otherwise buffer and possibly start a timer. -/
theorem TerminalDataBatcher.push_eq (b : TerminalDataBatcher) (data : String) :
    b.push data =
      if (b.buffer ++ data).length ≥ MAX_BUFFER_SIZE then
        (⟨"", false⟩, [b.buffer ++ data])
      else if b.timer then (⟨b.buffer ++ data, b.timer⟩, [])
      else (⟨b.buffer ++ data, true⟩, []) := by
  show (if (b.buffer ++ data).length ≥ MAX_BUFFER_SIZE then
          TerminalDataBatcher.flush ⟨b.buffer ++ data, b.timer⟩
        else if b.timer then (⟨b.buffer ++ data, b.timer⟩, [])
        else (⟨b.buffer ++ data, true⟩, [])) = _
  by_cases h : (b.buffer ++ data).length ≥ MAX_BUFFER_SIZE
  · rw [if_pos h, if_pos h]
    show (if (b.buffer ++ data).length > 0 then
            ((⟨"", false⟩ : TerminalDataBatcher), [b.buffer ++ data])
          else (⟨b.buffer ++ data, false⟩, [])) = _
    have hm : MAX_BUFFER_SIZE = 1048576 := rfl
    have hpos : (b.buffer ++ data).length > 0 := by omega
    rw [if_pos hpos]
  · rw [if_neg h, if_neg h]

/-- After any flush the batcher holds an empty buffer and no timer. -/
theorem TerminalDataBatcher.flush_fst (b : TerminalDataBatcher) :
    b.flush.1 = ⟨"", false⟩ := by
  unfold TerminalDataBatcher.flush
  by_cases h : b.buffer.length > 0
  · rw [if_pos h]
  · rw [if_neg h]
    have hb : b.buffer = "" := by
      cases hbuf : b.buffer with
      | mk cdata =>
        cases cdata with
        | nil => rfl
        | cons c cs => rw [hbuf] at h; simp [String.length] at h
    show ({ b with timer := false } : TerminalDataBatcher) = _
    rw [show ({ b with timer := false } : TerminalDataBatcher) = ⟨b.buffer, false⟩ from rfl, hb]

/-- C6.  Output Batcher byte ceiling: for every batcher state and every
pushed chunk, after `push` returns the internal buffer length is strictly
below `MAX_BUFFER_SIZE`; and the push emits (flushes immediately,
regardless of the timer state) exactly when the appended buffer reaches or
crosses the ceiling, in which case the whole buffer is the emitted chunk. -/
theorem batcher_byte_ceiling (b : TerminalDataBatcher) (data : String) :
    (b.push data).1.buffer.length < MAX_BUFFER_SIZE ∧
    (b.push data).2 =
      (if (b.buffer ++ data).length ≥ MAX_BUFFER_SIZE then [b.buffer ++ data] else []) := by
  rw [TerminalDataBatcher.push_eq]
  by_cases h : (b.buffer ++ data).length ≥ MAX_BUFFER_SIZE
  · rw [if_pos h, if_pos h]
    exact ⟨(by decide : ("" : String).length < MAX_BUFFER_SIZE), rfl⟩
  · rw [if_neg h, if_neg h]
    have hlt : (b.buffer ++ data).length < MAX_BUFFER_SIZE := lt_of_not_ge h
    by_cases ht : b.timer
    · rw [if_pos ht]
      exact ⟨hlt, rfl⟩
    · rw [if_neg ht]
      exact ⟨hlt, rfl⟩

/-- C9.  Empty flush is a no-op, and flush is idempotent: flushing with an
empty buffer emits nothing and merely clears the timer flag; and after any
flush, a second flush emits nothing and leaves the state unchanged, so two
consecutive flushes emit exactly what a single flush emits. -/
theorem batcher_flush_empty_idempotent (b : TerminalDataBatcher) :
    (b.buffer = "" → b.flush = ({ b with timer := false }, [])) ∧
    ((b.flush.1.flush).1 = b.flush.1 ∧ (b.flush.1.flush).2 = []) := by
  refine ⟨fun h => ?_, ?_, ?_⟩
  · unfold TerminalDataBatcher.flush
    have h0 : ¬ (b.buffer.length > 0) := by rw [h]; decide
    rw [if_neg h0]
  · rw [TerminalDataBatcher.flush_fst b, TerminalDataBatcher.flush_fst]
  · rw [TerminalDataBatcher.flush_fst b]
    unfold TerminalDataBatcher.flush
    rw [if_neg (by decide : ¬ (("" : String).length > 0))]

/-- Witness for C9: on a concrete empty-buffer batcher with a pending
timer, flush emits nothing and clears the timer, and a second flush
changes nothing. -/
theorem batcher_flush_empty_idempotent_witness :
    (TerminalDataBatcher.mk "" true).flush = (TerminalDataBatcher.mk "" false, []) ∧
    (((TerminalDataBatcher.mk "" true).flush.1.flush).1 =
      (TerminalDataBatcher.mk "" true).flush.1) :=
  ⟨(batcher_flush_empty_idempotent (TerminalDataBatcher.mk "" true)).1 rfl,
    (batcher_flush_empty_idempotent (TerminalDataBatcher.mk "" true)).2.1⟩

/-!
The Zellij query cache (`ZellijSessionCache` in the source) and the async
query helpers.  The external `zellij` process is modelled by the outcome
of `runAsUserAsync`, an `Except`: `.ok stdout` for a completed command and
`.error e` for a failure, including the `ETIMEDOUT` failure produced when
the bounded timeout (`ZELLIJ_COMMAND_TIMEOUT_MS`) elapses.  `Date.now()`
becomes the explicit argument `now`; the two `Map`s become association
lists where an insert prepends and `List.lookup` finds the newest entry. -/

/-- Cache key construction from the source: session name, a colon, and
the acting Unix user (or `daemon` when running as the daemon itself). -/
def getCacheKey (sessionName : String) (asUser : Option String) : String :=
  sessionName ++ ":" ++ asUser.getD "daemon"

/-- `zellijSessionExistsAsync` from the source: list sessions, split the
output into trimmed lines and test exact membership of the session name;
on any failure of the external command (timeouts included) return
`false`.  The error is consumed here — the return type is `Bool`, so no
failure can propagate to the caller. -/
def zellijSessionExistsAsync (external : Except String String) (sessionName : String) : Bool :=
  match external with
  | .ok output => ((output.splitOn "\n").map String.trim).contains sessionName
  | .error _ => false

/-- State of a `ZellijSessionCache`: tab lists and existence results with
their capture timestamps, keyed by `getCacheKey`. -/
structure ZellijSessionCache where
  tabsCache : List (String × List String × Nat)
  existsCache : List (String × Bool × Nat)
deriving DecidableEq

/-- A cached entry is served only while its age is below the TTL; this is
the `cached && now - cached.timestamp < TAB_CACHE_TTL_MS` test from the
source. -/
def freshEntry {α : Type} (now : Nat) : Option (α × Nat) → Option α
  | some (v, ts) => if now - ts < TAB_CACHE_TTL_MS then some v else none
  | none => none

/-- `ZellijSessionCache.sessionExists` from the source: serve a fresh
cached result, otherwise query the external process and record the result
with a fresh timestamp. -/
def ZellijSessionCache.sessionExists (cache : ZellijSessionCache) (now : Nat)
    (external : Except String String) (sessionName : String) (asUser : Option String) :
    Bool × ZellijSessionCache :=
  let cacheKey := getCacheKey sessionName asUser
  match freshEntry now (cache.existsCache.lookup cacheKey) with
  | some b => (b, cache)
  | none =>
    let ex := zellijSessionExistsAsync external sessionName
    (ex, { cache with existsCache := (cacheKey, ex, now) :: cache.existsCache })

/-- `ZellijSessionCache.fetchTabs` from the source: query the tab names,
one per line, trimmed, dropping empty lines; on any failure of the
external command (timeouts included) return the empty list.  The error is
consumed here — the return type is a plain list. -/
def ZellijSessionCache.fetchTabs (external : Except String String) : List String :=
  match external with
  | .ok output => ((output.splitOn "\n").map String.trim).filter (fun line => line.length > 0)
  | .error _ => []

/-- `ZellijSessionCache.getTabs` from the source: serve a fresh cached tab
list, otherwise fetch and record it. -/
def ZellijSessionCache.getTabs (cache : ZellijSessionCache) (now : Nat)
    (external : Except String String) (sessionName : String) (asUser : Option String) :
    List String × ZellijSessionCache :=
  let cacheKey := getCacheKey sessionName asUser
  match freshEntry now (cache.tabsCache.lookup cacheKey) with
  | some tabs => (tabs, cache)
  | none =>
    let tabs := ZellijSessionCache.fetchTabs external
    (tabs, { cache with tabsCache := (cacheKey, tabs, now) :: cache.tabsCache })

/-- `ZellijSessionCache.invalidate` from the source: drop both cache
entries for the session key. -/
def ZellijSessionCache.invalidate (cache : ZellijSessionCache) (sessionName : String)
    (asUser : Option String) : ZellijSessionCache :=
  let cacheKey := getCacheKey sessionName asUser
  { tabsCache := cache.tabsCache.filter (fun e => e.1 != cacheKey),
    existsCache := cache.existsCache.filter (fun e => e.1 != cacheKey) }

/-- C4.  Cache read-path degradation: for every cache state, session name
and acting identity, whenever the external multiplexer query fails or
times out (an `.error` outcome, which is how an `ETIMEDOUT` of the
bounded-timeout execution surfaces) and no fresh cache entry masks the
read, `sessionExists` returns `false` and `getTabs` returns the empty
list.  In neither case is the error propagated: both embeddings are total
functions into plain values, mirroring the source handlers that swallow
the exception. -/
theorem cache_read_path_degradation (cache : ZellijSessionCache) (now : Nat)
    (sessionName : String) (asUser : Option String) (err : String) :
    (freshEntry now (cache.existsCache.lookup (getCacheKey sessionName asUser)) = none →
      (cache.sessionExists now (.error err) sessionName asUser).1 = false) ∧
    (freshEntry now (cache.tabsCache.lookup (getCacheKey sessionName asUser)) = none →
      (cache.getTabs now (.error err) sessionName asUser).1 = []) := by
  constructor
  · intro h
    unfold ZellijSessionCache.sessionExists
    simp [h, zellijSessionExistsAsync]
  · intro h
    unfold ZellijSessionCache.getTabs
    simp [h, ZellijSessionCache.fetchTabs]

/-- Witness for C4: on the empty cache, a timed-out external query makes
`sessionExists` answer `false` and `getTabs` answer `[]`. -/
theorem cache_read_path_degradation_witness :
    (ZellijSessionCache.sessionExists ⟨[], []⟩ 0 (.error "ETIMEDOUT") "agor-shared" none).1
        = false ∧
    (ZellijSessionCache.getTabs ⟨[], []⟩ 0 (.error "ETIMEDOUT") "agor-shared" none).1 = [] :=
  ⟨(cache_read_path_degradation ⟨[], []⟩ 0 "agor-shared" none "ETIMEDOUT").1 rfl,
    (cache_read_path_degradation ⟨[], []⟩ 0 "agor-shared" none "ETIMEDOUT").2 rfl⟩

/-!
Init-command construction and injection (`buildInitCommands` and
`executeInitCommands` in the source), and the tab-management phase of
`create`.  A Zellij control action issued through `runZellijActionAsync`
is recorded as a `ZAction` carrying its already-escaped dynamic values,
exactly as the source interpolates them into the action string. -/

/-- One Zellij CLI action as issued by the service: rename the current
tab, create a tab, navigate to a tab, inject literal keystrokes
(`write-chars`), write a single control byte (`write`), or sleep between
actions.  String payloads carry the escaped text exactly as interpolated
into the action. -/
inductive ZAction where
  | renameTab (name : String)
  | newTab (name : String) (cwd : String)
  | goToTab (name : String)
  | writeChars (s : String)
  | writeByte (n : Nat)
  | delay (ms : Nat)
deriving DecidableEq

/-- `buildInitCommands` from the source: optionally source the env file,
then `cd` to the working directory — always when `alwaysCd` is set, and
otherwise only when the directory differs from the home directory.  All
dynamic values pass through `escapeShellArg`. -/
def buildInitCommands (envFile : Option String) (cwd : String) (alwaysCd : Bool)
    (homedir : String) : List String :=
  (match envFile with
   | some f =>
     ["[ -f " ++ escapeShellArg f ++ " ] && source " ++ escapeShellArg f ++
       " 2>/dev/null || true"]
   | none => []) ++
  (if alwaysCd || cwd != homedir then ["cd " ++ escapeShellArg cwd] else [])

/-- `executeInitCommands` from the source: nothing to do for an empty
command list; otherwise join the commands with ` && `, inject them as one
literal keystroke sequence through `escapeDoubleQuoted`, then write the
terminating control byte 10 (line feed). -/
def executeInitCommands (initCommands : List String) : List ZAction :=
  if initCommands.length = 0 then []
  else
    [ZAction.writeChars (escapeDoubleQuoted (String.intercalate " && " initCommands)),
      ZAction.writeByte 10]

/-- Counterexample for C5.  On a concrete create with an env file, the
injected keystroke sequence is terminated by control byte 10 (line feed),
not by a carriage return (control byte 13): no `write 13` action is ever
issued, the last action is `write 10`. -/
theorem init_terminator_counterexample :
    buildInitCommands (some "/tmp/agor-env.sh") "/work" false "/root" ≠ [] ∧
    ZAction.writeByte 13 ∉
      executeInitCommands (buildInitCommands (some "/tmp/agor-env.sh") "/work" false "/root") ∧
    (executeInitCommands
        (buildInitCommands (some "/tmp/agor-env.sh") "/work" false "/root")).getLast? =
      some (ZAction.writeByte 10) := by
  decide

/-- C5 (amended).  Init-command injection protocol: the init commands —
sourcing the env file when present, and `cd` to the resolved directory,
always when `alwaysCd` is set (newly created or switched tabs) and
otherwise only when the directory differs from the home directory — are
delivered as exactly one literal keystroke sequence whose dynamic values
pass through the escapers, terminated by control byte 10 (line feed, not
the carriage return 13 the original claim states). -/
theorem init_commands_protocol (envFile : Option String) (cwd : String) (alwaysCd : Bool)
    (homedir : String) :
    (buildInitCommands envFile cwd alwaysCd homedir = [] →
      executeInitCommands (buildInitCommands envFile cwd alwaysCd homedir) = []) ∧
    (buildInitCommands envFile cwd alwaysCd homedir ≠ [] →
      executeInitCommands (buildInitCommands envFile cwd alwaysCd homedir) =
        [ZAction.writeChars (escapeDoubleQuoted
            (String.intercalate " && " (buildInitCommands envFile cwd alwaysCd homedir))),
          ZAction.writeByte 10]) ∧
    (∀ f, envFile = some f →
      ("[ -f " ++ escapeShellArg f ++ " ] && source " ++ escapeShellArg f ++
          " 2>/dev/null || true") ∈ buildInitCommands envFile cwd alwaysCd homedir) ∧
    ((alwaysCd = true ∨ cwd ≠ homedir) →
      ("cd " ++ escapeShellArg cwd) ∈ buildInitCommands envFile cwd alwaysCd homedir) ∧
    (alwaysCd = false ∧ cwd = homedir →
      buildInitCommands envFile cwd alwaysCd homedir =
        (match envFile with
         | some f =>
           ["[ -f " ++ escapeShellArg f ++ " ] && source " ++ escapeShellArg f ++
             " 2>/dev/null || true"]
         | none => [])) := by
  refine ⟨fun h => ?_, fun h => ?_, fun f hf => ?_, fun h => ?_, fun h => ?_⟩
  · unfold executeInitCommands
    rw [h]
    rfl
  · unfold executeInitCommands
    rw [if_neg (fun hz => h (List.length_eq_zero.mp hz))]
  · subst hf
    simp [buildInitCommands]
  · rcases h with h | h
    · subst h
      simp [buildInitCommands]
    · have hb : (cwd != homedir) = true := bne_iff_ne.mpr h
      simp [buildInitCommands, hb]
  · obtain ⟨h1, h2⟩ := h
    subst h1
    subst h2
    simp [buildInitCommands]

/-- Witness for C5: concrete env file, directory and `alwaysCd` — the
protocol produces the single escaped keystroke injection plus the byte-10
terminator, and the `cd` command is present. -/
theorem init_commands_protocol_witness :
    executeInitCommands (buildInitCommands (some "/env.sh") "/w" true "/h") =
      [ZAction.writeChars (escapeDoubleQuoted
          (String.intercalate " && " (buildInitCommands (some "/env.sh") "/w" true "/h"))),
        ZAction.writeByte 10] ∧
    ("cd " ++ escapeShellArg "/w") ∈ buildInitCommands (some "/env.sh") "/w" true "/h" :=
  ⟨(init_commands_protocol (some "/env.sh") "/w" true "/h").2.1 (by decide),
    (init_commands_protocol (some "/env.sh") "/w" true "/h").2.2.2.1 (Or.inl rfl)⟩

/-- Results of fallible service operations are compared in concrete
counterexamples, so equality of `Except` results must be decidable. -/
instance exceptDecidableEq {ε α : Type} [DecidableEq ε] [DecidableEq α] :
    DecidableEq (Except ε α) := fun a b =>
  match a, b with
  | .ok x, .ok y =>
    if h : x = y then isTrue (by rw [h]) else isFalse (by intro hh; cases hh; exact h rfl)
  | .error x, .error y =>
    if h : x = y then isTrue (by rw [h]) else isFalse (by intro hh; cases hh; exact h rfl)
  | .ok _, .error _ => isFalse (by intro hh; cases hh)
  | .error _, .ok _ => isFalse (by intro hh; cases hh)

/-- An observable event of the tab-management phase of `create`: a Zellij
action issued, or the synchronous cache invalidation. -/
inductive TabEv where
  | action (a : ZAction)
  | invalidate
deriving DecidableEq

/-- The classification computed by `create` from the cached session
existence and tab list: reuse an existing tab (switch to it), create a
new tab, or — when the session does not exist yet — neither flag. -/
structure TabPlan where
  zellijReused : Bool
  needsTabCreation : Bool
  needsTabSwitch : Bool
deriving DecidableEq

/-- The classification logic of `create` (source lines around the
`sessionExists` check): in an existing session, an existing tab of that
name means reuse/switch, a missing tab means creation; a missing session
means first-session setup. -/
def classifyTabs (sessionExists : Bool) (existingTabs : List String) (tabName : String) :
    TabPlan :=
  if sessionExists then
    if existingTabs.contains tabName then ⟨true, false, true⟩
    else ⟨false, true, false⟩
  else ⟨false, false, false⟩

/-- Outcomes of the critical Zellij actions during the tab phase, an
external-world model: whether `rename-tab`, `new-tab` and
`go-to-tab-name` each succeed when issued. -/
structure ZellijWorld where
  renameTabOk : Bool
  newTabOk : Bool
  goToTabOk : Bool
deriving DecidableEq

/-- The init-command injection as events of the tab phase. -/
def initActions (envFile : Option String) (cwd : String) (alwaysCd : Bool)
    (homedir : String) : List TabEv :=
  (executeInitCommands (buildInitCommands envFile cwd alwaysCd homedir)).map TabEv.action

/-- The tab-management phase of `TerminalsService.create` (the `try`
block after readiness waiting).  Critical actions are issued with
`throwOnError`, so a failing one aborts the phase and the surrounding
`catch` rethrows a wrapped error; `executeInitCommands` and the `write 3`
use the swallowing variant and never throw.  The event list records, in
program order, each issued action and the synchronous cache
invalidation. -/
def tabPhase (sessionExists : Bool) (plan : TabPlan) (w : ZellijWorld)
    (tabName cwd : String) (envFile : Option String) (homedir : String) :
    List TabEv × Except String Unit :=
  if !sessionExists then
    if w.renameTabOk then
      ([TabEv.action (.renameTab (escapeDoubleQuoted tabName)), TabEv.invalidate] ++
        initActions envFile cwd false homedir, .ok ())
    else
      ([TabEv.action (.renameTab (escapeDoubleQuoted tabName))],
        .error "Zellij tab configuration failed: rename-tab")
  else if plan.needsTabCreation then
    if w.newTabOk then
      if w.goToTabOk then
        ([TabEv.action (.newTab (escapeDoubleQuoted tabName) (escapeDoubleQuoted cwd)),
          TabEv.action (.goToTab (escapeDoubleQuoted tabName)), TabEv.invalidate,
          TabEv.action (.delay 50)] ++ initActions envFile cwd true homedir, .ok ())
      else
        ([TabEv.action (.newTab (escapeDoubleQuoted tabName) (escapeDoubleQuoted cwd)),
          TabEv.action (.goToTab (escapeDoubleQuoted tabName))],
          .error "Zellij tab configuration failed: go-to-tab-name")
    else
      ([TabEv.action (.newTab (escapeDoubleQuoted tabName) (escapeDoubleQuoted cwd))],
        .error "Zellij tab configuration failed: new-tab")
  else if plan.needsTabSwitch then
    if w.goToTabOk then
      ([TabEv.action (.goToTab (escapeDoubleQuoted tabName)),
        TabEv.action (.writeByte 3), TabEv.action (.delay 20)] ++
        initActions envFile cwd true homedir, .ok ())
    else
      ([TabEv.action (.goToTab (escapeDoubleQuoted tabName))],
        .error "Zellij tab configuration failed: go-to-tab-name")
  else ([], .ok ())

/-- The tab-mutating events: issuing `rename-tab` or `new-tab`. -/
def isTabMutation : TabEv → Bool
  | .action (.renameTab _) => true
  | .action (.newTab _ _) => true
  | _ => false

/-- The init-command injection issues no tab-mutating action. -/
theorem initActions_no_mutation (envFile : Option String) (cwd : String) (alwaysCd : Bool)
    (homedir : String) :
    (initActions envFile cwd alwaysCd homedir).any isTabMutation = false := by
  unfold initActions executeInitCommands
  by_cases hn : (buildInitCommands envFile cwd alwaysCd homedir).length = 0
  · rw [if_pos hn]
    rfl
  · rw [if_neg hn]
    rfl

/-- Counterexample for C3.  On a concrete path of the tab phase — the
session exists, the worktree has no tab yet, `new-tab` succeeds and the
following `go-to-tab-name` throws — a tab-creating action is issued, yet
`create` propagates the failure without ever invalidating the cache. -/
theorem tab_invalidate_counterexample :
    ((tabPhase true (classifyTabs true [] "dev") ⟨true, true, false⟩ "dev" "/work" none
        "/root").1.any isTabMutation = true) ∧
    TabEv.invalidate ∉
      (tabPhase true (classifyTabs true [] "dev") ⟨true, true, false⟩ "dev" "/work" none
        "/root").1 ∧
    (tabPhase true (classifyTabs true [] "dev") ⟨true, true, false⟩ "dev" "/work" none
        "/root").2 ≠ Except.ok () := by
  decide

/-- C3 (amended).  Synchronous cache invalidation after tab mutation, on
successfully returning paths: whenever the tab phase of `create` returns
normally and issued a tab-creating or tab-renaming action, the cache
invalidation happens synchronously within the phase, after that mutating
action and before control returns.  (On paths that throw after a mutating
action, the original claim fails: see the counterexample.) -/
theorem tab_invalidate_on_success (sessionExists : Bool) (tabs : List String)
    (tabName cwd : String) (envFile : Option String) (homedir : String) (w : ZellijWorld)
    (hok : (tabPhase sessionExists (classifyTabs sessionExists tabs tabName) w tabName cwd
        envFile homedir).2 = .ok ())
    (hmut : (tabPhase sessionExists (classifyTabs sessionExists tabs tabName) w tabName cwd
        envFile homedir).1.any isTabMutation = true) :
    ∃ pre post,
      (tabPhase sessionExists (classifyTabs sessionExists tabs tabName) w tabName cwd
          envFile homedir).1 = pre ++ TabEv.invalidate :: post ∧
      pre.any isTabMutation = true := by
  cases sessionExists with
  | false =>
    cases hw : w.renameTabOk with
    | true =>
      refine ⟨[TabEv.action (.renameTab (escapeDoubleQuoted tabName))],
        initActions envFile cwd false homedir, ?_, rfl⟩
      simp [tabPhase, hw]
    | false =>
      rw [tabPhase] at hok
      simp [hw] at hok
  | true =>
    cases hc : tabs.contains tabName with
    | true =>
      rw [classifyTabs, if_pos rfl, if_pos hc] at hok hmut
      cases hg : w.goToTabOk with
      | true =>
        rw [tabPhase] at hmut
        simp [hg, List.any_append, initActions_no_mutation, isTabMutation] at hmut
      | false =>
        rw [tabPhase] at hok
        simp [hg] at hok
    | false =>
      have hcc : ¬ (tabs.contains tabName = true) := by rw [hc]; simp
      rw [classifyTabs, if_pos rfl, if_neg hcc] at hok hmut ⊢
      cases hn : w.newTabOk with
      | true =>
        cases hg : w.goToTabOk with
        | true =>
          refine ⟨[TabEv.action (.newTab (escapeDoubleQuoted tabName)
              (escapeDoubleQuoted cwd)),
            TabEv.action (.goToTab (escapeDoubleQuoted tabName))],
            TabEv.action (.delay 50) :: initActions envFile cwd true homedir, ?_, rfl⟩
          simp [tabPhase, hn, hg]
        | false =>
          rw [tabPhase] at hok
          simp [hn, hg] at hok
      | false =>
        rw [tabPhase] at hok
        simp [hn] at hok

/-- Witness for C3: on a concrete successful first-session path, the
trace splits as a mutating prefix, the invalidation, and the rest. -/
theorem tab_invalidate_on_success_witness :
    ∃ pre post,
      (tabPhase false (classifyTabs false [] "dev") ⟨true, true, true⟩ "dev" "/work" none
          "/root").1 = pre ++ TabEv.invalidate :: post ∧
      pre.any isTabMutation = true :=
  tab_invalidate_on_success false [] "dev" "/work" none "/root" ⟨true, true, true⟩
    (by decide) (by decide)

/-!
Identity resolution.  The functions `resolveUnixUserForImpersonation`,
`validateResolvedUnixUser` and `formatShortId` live in `@agor/core/unix`
and `@agor/core/db`, which are not part of the sources here; they are
modelled from the spec (4.3 and the short-id convention) below. -/

/-- Modelled from the spec: the impersonation mode of the Identity
Resolver (spec 4.3) — the `@agor/core/unix` enum `UnixUserMode` is not
under the available sources.  One of never-impersonate (the code default
`simple`), impersonate-if-mapped, always-impersonate-with-fallback. -/
inductive UnixUserMode where
  | neverImpersonate
  | impersonateIfMapped
  | alwaysImpersonateWithFallback
deriving DecidableEq

/-- Modelled from the spec: `resolveUnixUserForImpersonation` from
`@agor/core/unix` (not under the available sources) — resolve the acting
OS identity from the mode, the requesting user mapping and the fallback
executor identity; `none` means run as the orchestrator itself. -/
def resolveUnixUserForImpersonation (mode : UnixUserMode)
    (userUnixUsername : Option String) (executorUnixUser : Option String) : Option String :=
  match mode with
  | .neverImpersonate => none
  | .impersonateIfMapped => userUnixUsername
  | .alwaysImpersonateWithFallback => userUnixUsername.orElse fun _ => executorUnixUser

/-- Modelled from the spec: `validateResolvedUnixUser` from
`@agor/core/unix` (not under the available sources) — when the mode
requires impersonation and no identity resolves, or the resolved identity
does not exist on the system, fail with a configuration error naming the
missing identity (`UnixUserNotFoundError`). -/
def validateResolvedUnixUser (mode : UnixUserMode) (resolved : Option String)
    (unixUserExists : String → Bool) : Except String Unit :=
  match mode with
  | .neverImpersonate => .ok ()
  | .impersonateIfMapped =>
    match resolved with
    | none => .ok ()
    | some u => if unixUserExists u then .ok () else .error ("Unix user not found: " ++ u)
  | .alwaysImpersonateWithFallback =>
    match resolved with
    | none => .error "Unix user not found: no user resolved for impersonation"
    | some u => if unixUserExists u then .ok () else .error ("Unix user not found: " ++ u)

/-- Modelled from the spec: `formatShortId` from `@agor/core/db` (not
under the available sources) — the 8-character short form of an
identifier, as the source comment describes: use the short 8-character id
to keep Zellij session names under the length limit. -/
def formatShortId (id : String) : String :=
  id.take 8

/-!
The terminal table and `TerminalsService.create` / `get`.  All
collaborator outcomes that `create` consumes (config, repositories, file
system, the PTY spawn, the Zellij world) are fields of `CreateEnv`; the
generated terminal id (`Date.now()` plus randomness) is likewise an
environment input.  The terminal table is the explicit association list
`sessions`; `create` returns its result, the new table, and the trace of
observable events in program order. -/

/-- The stored terminal record (the fields of `TerminalSession` that the
claims observe; the PTY handle and batcher are collaborator state). -/
structure TerminalSessionR where
  terminalId : String
  cwd : String
  zellijSession : String
  cols : Nat
  rows : Nat
deriving DecidableEq

/-- The payload of `CreateTerminalData` from the source. -/
structure CreateTerminalData where
  cwd : Option String
  shell : Option String
  rows : Option Nat
  cols : Option Nat
  userId : Option String
  worktreeId : Option String
deriving DecidableEq

/-- A worktree row as returned by the worktree repository. -/
structure WorktreeRec where
  name : String
  path : String
deriving DecidableEq

/-- The environment of one `create` call: all collaborator outcomes it
consumes, in the order the source uses them. -/
structure CreateEnv where
  terminalId : String
  authenticatedUserId : Option String
  userUnixUsername : Option String
  unixUserMode : UnixUserMode
  executorUnixUser : Option String
  unixUserExists : String → Bool
  worktree : Option WorktreeRec
  symlinkExists : Bool
  homedir : String
  sessionExistsR : Bool
  existingTabs : List String
  spawnOk : Bool
  world : ZellijWorld
  envFileR : Option String

/-- Observable events of a `create` call. -/
inductive CreateEv where
  | ptySpawned
  | registered (id : String)
  | tab (e : TabEv)
deriving DecidableEq

/-- The result record `create` returns on success. -/
structure CreateResult where
  terminalId : String
  cwd : String
  zellijSession : String
  zellijReused : Bool
  worktreeName : Option String
deriving DecidableEq

/-- The resolved owning user id: the `userId` of the request, falling back to
the authenticated user. -/
def resolvedUserIdOf (env : CreateEnv) (data : CreateTerminalData) : Option String :=
  data.userId.orElse fun _ => env.authenticatedUserId

/-- The per-user session suffix: the 8-character short id, or `shared`
when no user resolves. -/
def userSessionSuffixOf (env : CreateEnv) (data : CreateTerminalData) : String :=
  match resolvedUserIdOf env data with
  | none => "shared"
  | some uid => formatShortId uid

/-- The Zellij session name computed by `create`. -/
def zellijSessionOf (env : CreateEnv) (data : CreateTerminalData) : String :=
  "agor-" ++ userSessionSuffixOf env data

/-- The mapped Unix identity of the requesting user as `create` obtains it:
looked up only for an authenticated user; lookup errors and missing
mappings both leave it unset. -/
def impersonatedUserOf (env : CreateEnv) : Option String :=
  match env.authenticatedUserId with
  | some _ => env.userUnixUsername
  | none => none

/-- The acting OS identity of the `create` call. -/
def finalUnixUserOf (env : CreateEnv) : Option String :=
  resolveUnixUserForImpersonation env.unixUserMode (impersonatedUserOf env)
    env.executorUnixUser

/-- The worktree row `create` uses: the repository result, consulted only
when the request carries a worktree id. -/
def createWtOf (env : CreateEnv) (data : CreateTerminalData) : Option WorktreeRec :=
  match data.worktreeId with
  | some _ => env.worktree
  | none => none

/-- The worktree name recorded by `create`. -/
def createWorktreeNameOf (env : CreateEnv) (data : CreateTerminalData) : Option String :=
  (createWtOf env data).map (·.name)

/-- The working directory `create` resolves: for a worktree under an
acting Unix identity with a non-empty name, the per-identity symlink path
when it exists on disk, else the canonical path of the worktree; without a
worktree, the caller-supplied directory or the home directory. -/
def createCwdOf (env : CreateEnv) (data : CreateTerminalData) : String :=
  match createWtOf env data with
  | some w =>
    match finalUnixUserOf env with
    | some u =>
      if w.name != "" then
        (if env.symlinkExists then "/home/" ++ u ++ "/agor/worktrees/" ++ w.name
         else w.path)
      else w.path
    | none => w.path
  | none =>
    match data.cwd with
    | some c => if c = "" then env.homedir else c
    | none => env.homedir

/-- The tab name `create` uses: the worktree name, or the fixed label
`terminal` when no worktree (or an empty name) is given. -/
def createTabNameOf (env : CreateEnv) (data : CreateTerminalData) : String :=
  match createWorktreeNameOf env data with
  | some n => if n = "" then "terminal" else n
  | none => "terminal"

/-- The tab classification `create` derives from the cached session
existence and tab list. -/
def createPlanOf (env : CreateEnv) (data : CreateTerminalData) : TabPlan :=
  classifyTabs env.sessionExistsR env.existingTabs (createTabNameOf env data)

/-- The env file path `create` passes to the init commands: written only
when a user resolves. -/
def createEnvFileOf (env : CreateEnv) (data : CreateTerminalData) : Option String :=
  match resolvedUserIdOf env data with
  | some _ => env.envFileR
  | none => none

/-- The terminal record `create` registers in the table. -/
def createRecordOf (env : CreateEnv) (data : CreateTerminalData) : TerminalSessionR :=
  ⟨env.terminalId, createCwdOf env data, zellijSessionOf env data,
    data.cols.getD 80, data.rows.getD 30⟩

/-- The result record a successful `create` returns. -/
def createResultOf (env : CreateEnv) (data : CreateTerminalData) : CreateResult :=
  ⟨env.terminalId, createCwdOf env data, zellijSessionOf env data,
    (createPlanOf env data).zellijReused, createWorktreeNameOf env data⟩

/-- `TerminalsService.create` from the source, as a function of its
environment: resolve and validate the acting identity (fatal on error,
before anything else happens); resolve the worktree and working
directory, preferring the per-identity symlink path; compute the session
name from the resolved user and classify the tab request from the cached
session state; spawn the PTY (fatal on error, nothing registered);
register the terminal record; run the tab-management phase; propagate its
failure or return the result record.  Returns the operation result, the
new terminal table and the event trace. -/
def TerminalsService.create (env : CreateEnv) (data : CreateTerminalData)
    (sessions : List (String × TerminalSessionR)) :
    Except String CreateResult × List (String × TerminalSessionR) × List CreateEv :=
  match validateResolvedUnixUser env.unixUserMode (finalUnixUserOf env)
      env.unixUserExists with
  | .error msg =>
    (.error (msg ++ ". Ensure the Unix user is created before attempting terminal access."),
      sessions, [])
  | .ok _ =>
    if env.spawnOk then
      match (tabPhase env.sessionExistsR (createPlanOf env data) env.world
          (createTabNameOf env data) (createCwdOf env data) (createEnvFileOf env data)
          env.homedir).2 with
      | .error e =>
        (.error e, (env.terminalId, createRecordOf env data) :: sessions,
          CreateEv.ptySpawned :: CreateEv.registered env.terminalId ::
            (tabPhase env.sessionExistsR (createPlanOf env data) env.world
              (createTabNameOf env data) (createCwdOf env data) (createEnvFileOf env data)
              env.homedir).1.map CreateEv.tab)
      | .ok _ =>
        (.ok (createResultOf env data),
          (env.terminalId, createRecordOf env data) :: sessions,
          CreateEv.ptySpawned :: CreateEv.registered env.terminalId ::
            (tabPhase env.sessionExistsR (createPlanOf env data) env.world
              (createTabNameOf env data) (createCwdOf env data) (createEnvFileOf env data)
              env.homedir).1.map CreateEv.tab)
    else
      (.error "Failed to create terminal session: spawn failed", sessions, [])

/-- The result record returned by `TerminalsService.get`. -/
structure GetResult where
  terminalId : String
  cwd : String
  alive : Bool
deriving DecidableEq

/-- `TerminalsService.get` from the source: a table lookup that fails
with a not-found error for an unknown id and otherwise returns the stored
id and working directory with the constant `alive: true` (the source
comment: the PTY does not expose an exit code directly). -/
def TerminalsService.get (sessions : List (String × TerminalSessionR)) (id : String) :
    Except String GetResult :=
  match sessions.lookup id with
  | none => .error ("Terminal " ++ id ++ " not found")
  | some s => .ok ⟨s.terminalId, s.cwd, true⟩

/-- C7.  Identity-resolution failure is fatal and atomic: whenever
validation of the resolved acting identity fails (the configured mode
requires an OS identity and none resolves, or the resolved identity does
not exist), `create` fails with the configuration error naming the
missing identity, no PTY is spawned, no event is emitted, and the
terminal table is returned unchanged — no terminal record is
registered. -/
theorem identity_failure_fatal_atomic (env : CreateEnv) (data : CreateTerminalData)
    (sessions : List (String × TerminalSessionR)) (e : String)
    (h : validateResolvedUnixUser env.unixUserMode (finalUnixUserOf env)
        env.unixUserExists = .error e) :
    (TerminalsService.create env data sessions).1 =
      .error (e ++ ". Ensure the Unix user is created before attempting terminal access.") ∧
    (TerminalsService.create env data sessions).2.1 = sessions ∧
    (TerminalsService.create env data sessions).2.2 = [] := by
  unfold TerminalsService.create
  rw [h]
  exact ⟨rfl, rfl, rfl⟩

/-- Witness for C7: a concrete environment in always-impersonate mode
with no mapped user and no executor fallback makes `create` fail with the
configuration error, leaving the (empty) table unchanged. -/
theorem identity_failure_fatal_atomic_witness :
    (TerminalsService.create
        ⟨"t1", none, none, .alwaysImpersonateWithFallback, none, fun _ => true, none, false,
          "/root", false, [], true, ⟨true, true, true⟩, none⟩
        ⟨none, none, none, none, none, none⟩ []).1 =
      .error ("Unix user not found: no user resolved for impersonation" ++
        ". Ensure the Unix user is created before attempting terminal access.") :=
  (identity_failure_fatal_atomic
    ⟨"t1", none, none, .alwaysImpersonateWithFallback, none, fun _ => true, none, false,
      "/root", false, [], true, ⟨true, true, true⟩, none⟩
    ⟨none, none, none, none, none, none⟩ []
    "Unix user not found: no user resolved for impersonation" rfl).1

/-- Every successful `create` returns the session name computed from the
resolved user identity. -/
theorem create_ok_zellijSession (env : CreateEnv) (data : CreateTerminalData)
    (sessions : List (String × TerminalSessionR)) (r : CreateResult)
    (h : (TerminalsService.create env data sessions).1 = .ok r) :
    r.zellijSession = zellijSessionOf env data := by
  unfold TerminalsService.create at h
  split at h
  · exact absurd h (by simp)
  · split at h
    · split at h
      · exact absurd h (by simp)
      · injection h with h2
        rw [← h2]
        rfl
    · exact absurd h (by simp)

/-- C8.  Session-name determinism per acting identity: the multiplexer
session name is a function of the resolved acting user identity alone —
two `create` calls with the same resolved identity, whatever their
worktree, working directory, shell or dimensions, that both succeed,
return the same Zellij session name. -/
theorem session_name_per_identity (env1 : CreateEnv) (data1 : CreateTerminalData)
    (tbl1 : List (String × TerminalSessionR)) (env2 : CreateEnv)
    (data2 : CreateTerminalData) (tbl2 : List (String × TerminalSessionR))
    (r1 r2 : CreateResult)
    (hid : resolvedUserIdOf env1 data1 = resolvedUserIdOf env2 data2)
    (h1 : (TerminalsService.create env1 data1 tbl1).1 = .ok r1)
    (h2 : (TerminalsService.create env2 data2 tbl2).1 = .ok r2) :
    r1.zellijSession = r2.zellijSession := by
  rw [create_ok_zellijSession env1 data1 tbl1 r1 h1,
    create_ok_zellijSession env2 data2 tbl2 r2 h2]
  unfold zellijSessionOf userSessionSuffixOf
  rw [hid]

/-- Witness for C8: two concrete successful creates for the same user —
one with no worktree in a fresh session, one reusing an existing tab of
another worktree, with different directories and dimensions — return the
same session name `agor-user-aaa`. -/
theorem session_name_per_identity_witness :
    CreateResult.zellijSession ⟨"t1", "/w1", "agor-user-aaa", false, none⟩ =
      CreateResult.zellijSession ⟨"t2", "/repo/alpha", "agor-user-aaa", true, some "alpha"⟩ :=
  session_name_per_identity
    ⟨"t1", none, none, .neverImpersonate, none, fun _ => false, none, false, "/root",
      false, [], true, ⟨true, true, true⟩, none⟩
    ⟨some "/w1", none, none, some 100, some "user-aaaa-bbbb", none⟩ []
    ⟨"t2", some "user-aaaa-bbbb", none, .neverImpersonate, none, fun _ => false,
      some ⟨"alpha", "/repo/alpha"⟩, false, "/root", true, ["alpha"], true,
      ⟨true, true, true⟩, none⟩
    ⟨some "/w2", some "bash", some 50, none, none, some "wt-1"⟩ []
    ⟨"t1", "/w1", "agor-user-aaa", false, none⟩
    ⟨"t2", "/repo/alpha", "agor-user-aaa", true, some "alpha"⟩
    rfl (by decide) (by decide)

/-- C10.  `get` never reports a dead terminal: for every terminal table
and id, `get` either fails with not-found or returns a record whose
`alive` field is the constant `true` — it never reflects whether the
underlying PTY has exited. -/
theorem get_alive_constant (sessions : List (String × TerminalSessionR)) (id : String)
    (r : GetResult) (h : TerminalsService.get sessions id = .ok r) : r.alive = true := by
  unfold TerminalsService.get at h
  cases hl : sessions.lookup id with
  | none => rw [hl] at h; exact absurd h (by simp)
  | some s =>
    rw [hl] at h
    injection h with h2
    rw [← h2]

/-- Witness for C10: a concrete one-entry table, where `get` returns the
record with `alive = true`. -/
theorem get_alive_constant_witness :
    (GetResult.mk "t1" "/w" true).alive = true :=
  get_alive_constant [("t1", ⟨"t1", "/w", "agor-s", 80, 30⟩)] "t1" ⟨"t1", "/w", true⟩ rfl

/-!
`TerminalsService.cleanup`.  The teardown of each live terminal performs
`batcher.flush()` (whose transport callback may throw),
`batcher.destroy()` (which cannot throw) and `pty.kill` (a native call
that may throw); the outcomes of the two fallible collaborator calls are
fields of the session model.  The source loop has no per-terminal
try/catch, so the embedding propagates the first failure, and
`sessions.clear()` runs only after the loop completes. -/

/-- A live terminal as `cleanup` sees it: its id and the outcomes its two
fallible teardown steps would have. -/
structure CleanupSession where
  terminalId : String
  flushResult : Except String Unit
  killResult : Except String Unit
deriving DecidableEq

/-- Teardown events of `cleanup`, per terminal. -/
inductive TearEv where
  | flushed (id : String)
  | destroyed (id : String)
  | killed (id : String)
deriving DecidableEq

/-- Teardown of one terminal inside the `cleanup` loop: flush, destroy,
kill, stopping at the first throwing step. -/
def teardownSession (s : CleanupSession) : List TearEv × Option String :=
  match s.flushResult with
  | .error e => ([], some e)
  | .ok _ =>
    match s.killResult with
    | .ok _ =>
      ([TearEv.flushed s.terminalId, TearEv.destroyed s.terminalId,
        TearEv.killed s.terminalId], none)
    | .error e => ([TearEv.flushed s.terminalId, TearEv.destroyed s.terminalId], some e)

/-- The `for` loop of `cleanup`: tear down each terminal in order; with
no try/catch around the body, the first failure aborts the loop. -/
def cleanupGo : List CleanupSession → List TearEv × Option String
  | [] => ([], none)
  | s :: rest =>
    match teardownSession s with
    | (evs, none) =>
      let r := cleanupGo rest
      (evs ++ r.1, r.2)
    | (evs, some e) => (evs, some e)

/-- `TerminalsService.cleanup` from the source: run the teardown loop,
then clear the table.  When the loop throws, the exception escapes
`cleanup` and the table is left as it was — `sessions.clear()` is never
reached.  Returns the events, the outcome and the resulting table. -/
def TerminalsService.cleanup (tbl : List CleanupSession) :
    List TearEv × Except String Unit × List CleanupSession :=
  match cleanupGo tbl with
  | (evs, none) => (evs, .ok (), [])
  | (evs, some e) => (evs, .error e, tbl)

/-- The full teardown event triple of one terminal. -/
def fullTeardown (s : CleanupSession) : List TearEv :=
  [TearEv.flushed s.terminalId, TearEv.destroyed s.terminalId, TearEv.killed s.terminalId]

/-- When every per-terminal step succeeds, the loop tears down every
terminal in order and reports no failure. -/
theorem cleanupGo_all_ok (tbl : List CleanupSession)
    (hall : ∀ s ∈ tbl, s.flushResult = .ok () ∧ s.killResult = .ok ()) :
    cleanupGo tbl = (tbl.flatMap fullTeardown, none) := by
  induction tbl with
  | nil => rfl
  | cons s rest ih =>
    have hs := hall s (by simp)
    have hrest : ∀ x ∈ rest, x.flushResult = .ok () ∧ x.killResult = .ok () :=
      fun x hx => hall x (by simp [hx])
    unfold cleanupGo teardownSession
    rw [hs.1, hs.2, ih hrest]
    simp [fullTeardown]

/-- Counterexample for C2.  `cleanup` is not safe against a throwing
per-terminal teardown: with a concrete table of two terminals whose first
PTY kill throws, `cleanup` raises instead of completing, the second
terminal is never terminated, and the table is not cleared. -/
theorem cleanup_counterexample :
    (TerminalsService.cleanup
        [⟨"t1", .ok (), .error "kill EPERM"⟩, ⟨"t2", .ok (), .ok ()⟩]).2.1 ≠
      Except.ok () ∧
    (TerminalsService.cleanup
        [⟨"t1", .ok (), .error "kill EPERM"⟩, ⟨"t2", .ok (), .ok ()⟩]).2.2 ≠ [] ∧
    TearEv.killed "t2" ∉
      (TerminalsService.cleanup
        [⟨"t1", .ok (), .error "kill EPERM"⟩, ⟨"t2", .ok (), .ok ()⟩]).1 := by
  decide

/-- C2 (amended).  `cleanup` tears down every terminal (flush, destroy,
kill, in table order) and clears the table whenever no per-terminal
teardown step throws; but it is not protected against collaborator
failures: when a step throws, the exception propagates out of `cleanup`,
the remaining terminals are not torn down, and the table is left
unchanged rather than cleared.  (The original never-throws claim fails:
see the counterexample.) -/
theorem cleanup_amended (tbl : List CleanupSession) :
    ((∀ s ∈ tbl, s.flushResult = .ok () ∧ s.killResult = .ok ()) →
      TerminalsService.cleanup tbl = (tbl.flatMap fullTeardown, .ok (), [])) ∧
    ((TerminalsService.cleanup tbl).2.1 ≠ .ok () →
      (TerminalsService.cleanup tbl).2.2 = tbl) := by
  constructor
  · intro hall
    unfold TerminalsService.cleanup
    rw [cleanupGo_all_ok tbl hall]
  · intro hne
    unfold TerminalsService.cleanup at hne ⊢
    cases hg : cleanupGo tbl with
    | mk evs res =>
      cases res with
      | none => rw [hg] at hne; exact absurd rfl hne
      | some e => rfl

/-- Witness for C2: a concrete all-successful table is fully torn down
and cleared. -/
theorem cleanup_amended_witness :
    TerminalsService.cleanup [⟨"t1", .ok (), .ok ()⟩] =
      ([TearEv.flushed "t1", TearEv.destroyed "t1", TearEv.killed "t1"],
        Except.ok (), []) :=
  (cleanup_amended [⟨"t1", .ok (), .ok ()⟩]).1 (by decide)

end Agor
